/-
Verification of the multiUploader upload core against its specification.

The development shallowly embeds the Go sources:
  * `internal/httpclient/client.go` — retrying HTTP transport (`Client.Do`,
    `isIdempotent`, `isTemporaryError`, `isRetriableStatusCode`);
  * `internal/providers` — the progress model (`SpeedCalculator`,
    `FormatSpeed`, `FormatSize`), the chunked part loop shared by the Rootz
    and AkiraBox providers, provider error handling, and API-key validation;
  * `internal/ui/upload_tab.go` — the upload controller's start/cancel logic.

Machine integers (Go `int64`) are embedded as `Int`, Go `float64` values as
`Rat` (the claims under study are order/equality properties that do not
depend on binary rounding), durations as `Rat` seconds, and fallible calls
as `Except`/`Option` values.  Network interactions are modelled by oracles:
a function from the attempt (or part) index to the outcome the wire would
produce.
-/
import Mathlib

namespace MultiUploader

/-! ## Transport (`internal/httpclient/client.go`) -/

/-- Embedding of the Go error values that `isTemporaryError` discriminates,
plus `fmt.Errorf("…: %w", inner)` wrapping and plain message errors. -/
inductive GoErr where
  | contextCanceled
  | deadlineExceeded
  | netTimeout
  | dnsError
  | opError
  | syscallRefused
  | syscallReset
  | syscallOther
  | eof
  | unexpectedEOF
  | statusErr (code : Nat)
  | otherErr (msg : String)
  | wrapped (msg : String) (inner : GoErr)
  deriving DecidableEq, Repr

/-- The unwrap chain of an error: the error itself followed by everything
reachable through `%w` wrapping (what `errors.Is`/`errors.As` traverse). -/
def GoErr.chain : GoErr → List GoErr
  | .wrapped msg inner => .wrapped msg inner :: inner.chain
  | e => [e]

/-- `errors.Is(e, target)` for the sentinel errors modelled here. -/
def errorsIs (e target : GoErr) : Bool :=
  e.chain.contains target

/-- `errors.As` specialised to a predicate on the concrete error type:
true when some error in the unwrap chain satisfies it. -/
def errorsAs (p : GoErr → Bool) (e : GoErr) : Bool :=
  e.chain.any p

/-- The rendered message of an error (`err.Error()` in Go);
`fmt.Errorf("%s: %w", m, inner)` renders as `m ++ ": " ++ inner`. -/
def GoErr.message : GoErr → String
  | .contextCanceled => "context canceled"
  | .deadlineExceeded => "context deadline exceeded"
  | .netTimeout => "net timeout"
  | .dnsError => "dns error"
  | .opError => "op error"
  | .syscallRefused => "connection refused"
  | .syscallReset => "connection reset"
  | .syscallOther => "syscall error"
  | .eof => "EOF"
  | .unexpectedEOF => "unexpected EOF"
  | .statusErr c => s!"retriable status code: {c}"
  | .otherErr m => m
  | .wrapped m inner => m ++ ": " ++ inner.message

/-- Whether some error in the unwrap chain renders exactly as `msg`. -/
def GoErr.chainHasMessage (e : GoErr) (msg : String) : Bool :=
  e.chain.any (fun x => x.message == msg)

/-- `isIdempotent` from `client.go`: GET, HEAD, PUT, DELETE, OPTIONS, TRACE. -/
def isIdempotent (method : String) : Bool :=
  method == "GET" || method == "HEAD" || method == "PUT" ||
  method == "DELETE" || method == "OPTIONS" || method == "TRACE"

/-- `isTemporaryError` from `client.go`, clause for clause:
context errors are not temporary; network timeouts, DNS errors, `net.OpError`,
ECONNREFUSED/ECONNRESET syscall errors and (unexpected) EOF are temporary. -/
def isTemporaryError (e : GoErr) : Bool :=
  if errorsIs e .contextCanceled || errorsIs e .deadlineExceeded then false
  else if errorsAs (fun x => x matches .netTimeout) e then true
  else if errorsAs (fun x => x matches .dnsError) e then true
  else if errorsAs (fun x => x matches .opError) e then true
  else if errorsAs (fun x => x matches .syscallRefused || x matches .syscallReset) e then true
  else if errorsIs e .eof || errorsIs e .unexpectedEOF then true
  else false

/-- `isRetriableStatusCode` from `client.go`: 408, 429, 500, 502, 503, 504. -/
def isRetriableStatusCode (statusCode : Nat) : Bool :=
  statusCode == 408 || statusCode == 429 || statusCode == 500 ||
  statusCode == 502 || statusCode == 503 || statusCode == 504

/-- Outcome of one executed `c.httpClient.Do(reqClone)` call. -/
inductive Outcome where
  | err (e : GoErr)
  | resp (status : Nat)
  deriving DecidableEq, Repr

/-- An outcome that makes the retry operation return a retriable error:
a temporary transport error, or a response with a retriable status code. -/
def causesRetry : Outcome → Bool
  | .err e => isTemporaryError e
  | .resp s => isRetriableStatusCode s

/-- Observable trace of one `Client.Do` call. -/
structure DoRun where
  /-- `(resp, err)` returned to the caller: a status or an error. -/
  result : Except GoErr Nat
  /-- number of HTTP calls actually executed -/
  attempts : Nat
  /-- status codes whose response bodies were drained and closed
  (`io.Copy(io.Discard, r.Body); r.Body.Close()`) before retrying -/
  discarded : List Nat
  /-- final value of the `lastErr` local -/
  lastErr : Option GoErr

/-- The `backoff.Retry(operation, …)` loop inside `Client.Do`.
`ctx i` is `req.Context().Err()` observed before attempt `i`; `f i` is the
outcome of the `i`-th executed HTTP call; `retriesLeft` is the remaining
retry budget installed by `backoff.WithMaxRetries`. -/
def doLoop (ctx : Nat → Option GoErr) (f : Nat → Outcome) :
    (retriesLeft i : Nat) → (lastErr : Option GoErr) → DoRun
  | retriesLeft, i, lastErr =>
    match ctx i with
    | some ce => ⟨.error ce, 0, [], lastErr⟩
    | none =>
      match f i with
      | .err e =>
        if isTemporaryError e then
          match retriesLeft with
          | 0 => ⟨.error e, 1, [], some e⟩
          | r + 1 =>
            let t := doLoop ctx f r (i + 1) (some e)
            ⟨t.result, t.attempts + 1, t.discarded, t.lastErr⟩
        else
          ⟨.error e, 1, [], lastErr⟩
      | .resp s =>
        if isRetriableStatusCode s then
          match retriesLeft with
          | 0 => ⟨.error (.statusErr s), 1, [s], some (.statusErr s)⟩
          | r + 1 =>
            let t := doLoop ctx f r (i + 1) (some (.statusErr s))
            ⟨t.result, t.attempts + 1, s :: t.discarded, t.lastErr⟩
        else
          ⟨.ok s, 1, [], lastErr⟩

/-- `Client.Do` from `client.go`: non-idempotent methods execute exactly one
HTTP call with no retry machinery; idempotent methods run the backoff loop
with `maxRetries` retries, and on failure the last observed error (when any)
is wrapped as `request failed after %d retries: %w`. -/
def goDo (method : String) (maxRetries : Nat)
    (ctx : Nat → Option GoErr) (f : Nat → Outcome) : DoRun :=
  if isIdempotent method then
    let t := doLoop ctx f maxRetries 0 none
    { t with result :=
        match t.result, t.lastErr with
        | .ok s, _ => .ok s
        | .error _, some le =>
          .error (.wrapped s!"request failed after {maxRetries} retries" le)
        | .error e, none => .error e }
  else
    match f 0 with
    | .err e => ⟨.error e, 1, [], none⟩
    | .resp s => ⟨.ok s, 1, [], none⟩

/-! ### Unfolding equations for `doLoop` -/

theorem doLoop_ctxSome {ctx : Nat → Option GoErr} {f : Nat → Outcome}
    {i : Nat} {ce : GoErr} (h : ctx i = some ce) (r : Nat) (le : Option GoErr) :
    doLoop ctx f r i le = ⟨.error ce, 0, [], le⟩ := by
  unfold doLoop; rw [h]

theorem doLoop_err_perm {ctx : Nat → Option GoErr} {f : Nat → Outcome}
    {i : Nat} {e : GoErr} (h : ctx i = none) (hf : f i = .err e)
    (ht : isTemporaryError e = false) (r : Nat) (le : Option GoErr) :
    doLoop ctx f r i le = ⟨.error e, 1, [], le⟩ := by
  unfold doLoop; rw [h, hf]; simp [ht]

theorem doLoop_err_temp_zero {ctx : Nat → Option GoErr} {f : Nat → Outcome}
    {i : Nat} {e : GoErr} (h : ctx i = none) (hf : f i = .err e)
    (ht : isTemporaryError e = true) (le : Option GoErr) :
    doLoop ctx f 0 i le = ⟨.error e, 1, [], some e⟩ := by
  unfold doLoop; rw [h, hf]; simp [ht]

theorem doLoop_err_temp_succ {ctx : Nat → Option GoErr} {f : Nat → Outcome}
    {i : Nat} {e : GoErr} (h : ctx i = none) (hf : f i = .err e)
    (ht : isTemporaryError e = true) (r : Nat) (le : Option GoErr) :
    doLoop ctx f (r + 1) i le =
      ⟨(doLoop ctx f r (i + 1) (some e)).result,
       (doLoop ctx f r (i + 1) (some e)).attempts + 1,
       (doLoop ctx f r (i + 1) (some e)).discarded,
       (doLoop ctx f r (i + 1) (some e)).lastErr⟩ := by
  conv_lhs => unfold doLoop
  rw [h, hf]; simp [ht]

theorem doLoop_resp_retriable_zero {ctx : Nat → Option GoErr} {f : Nat → Outcome}
    {i : Nat} {s : Nat} (h : ctx i = none) (hf : f i = .resp s)
    (hs : isRetriableStatusCode s = true) (le : Option GoErr) :
    doLoop ctx f 0 i le = ⟨.error (.statusErr s), 1, [s], some (.statusErr s)⟩ := by
  unfold doLoop; rw [h, hf]; simp [hs]

theorem doLoop_resp_retriable_succ {ctx : Nat → Option GoErr} {f : Nat → Outcome}
    {i : Nat} {s : Nat} (h : ctx i = none) (hf : f i = .resp s)
    (hs : isRetriableStatusCode s = true) (r : Nat) (le : Option GoErr) :
    doLoop ctx f (r + 1) i le =
      ⟨(doLoop ctx f r (i + 1) (some (.statusErr s))).result,
       (doLoop ctx f r (i + 1) (some (.statusErr s))).attempts + 1,
       s :: (doLoop ctx f r (i + 1) (some (.statusErr s))).discarded,
       (doLoop ctx f r (i + 1) (some (.statusErr s))).lastErr⟩ := by
  conv_lhs => unfold doLoop
  rw [h, hf]; simp [hs]

theorem doLoop_resp_ok {ctx : Nat → Option GoErr} {f : Nat → Outcome}
    {i : Nat} {s : Nat} (h : ctx i = none) (hf : f i = .resp s)
    (hs : isRetriableStatusCode s = false) (r : Nat) (le : Option GoErr) :
    doLoop ctx f r i le = ⟨.ok s, 1, [], le⟩ := by
  unfold doLoop; rw [h, hf]; simp [hs]

/-- Every executed loop body with a live context performs at least one
HTTP call. -/
theorem doLoop_attempts_pos {ctx : Nat → Option GoErr} {f : Nat → Outcome}
    {i : Nat} (h : ctx i = none) (r : Nat) (le : Option GoErr) :
    1 ≤ (doLoop ctx f r i le).attempts := by
  rcases hf : f i with e | s
  · rcases ht : isTemporaryError e with _ | _
    · rw [doLoop_err_perm h hf ht]
    · cases r with
      | zero => rw [doLoop_err_temp_zero h hf ht]
      | succ r => rw [doLoop_err_temp_succ h hf ht]; simp
  · rcases hs : isRetriableStatusCode s with _ | _
    · rw [doLoop_resp_ok h hf hs]
    · cases r with
      | zero => rw [doLoop_resp_retriable_zero h hf hs]
      | succ r => rw [doLoop_resp_retriable_succ h hf hs]; simp

/-! ## Claim C1 -/

/-- **C1.** In `Client.Do`, a retry is attempted only when the request method
is one of GET, HEAD, PUT, DELETE, OPTIONS, TRACE (`isIdempotent` returns true
exactly on that set); a POST or PATCH request is executed exactly once —
one HTTP call, no retry — regardless of how it fails, and more than one
attempt implies the method was idempotent. -/
theorem c1_retry_only_for_idempotent_methods :
    (∀ m, isIdempotent m = true ↔
      m = "GET" ∨ m = "HEAD" ∨ m = "PUT" ∨ m = "DELETE" ∨
      m = "OPTIONS" ∨ m = "TRACE") ∧
    (∀ maxRetries ctx f, (goDo "POST" maxRetries ctx f).attempts = 1) ∧
    (∀ maxRetries ctx f, (goDo "PATCH" maxRetries ctx f).attempts = 1) ∧
    (∀ m maxRetries ctx f,
      1 < (goDo m maxRetries ctx f).attempts → isIdempotent m = true) := by
  refine ⟨?_, ?_, ?_, ?_⟩
  · intro m
    simp [isIdempotent, Bool.or_eq_true, beq_iff_eq, or_assoc]
  · intro maxRetries ctx f
    have h : isIdempotent "POST" = false := by decide
    rcases hf : f 0 with e | s <;> simp [goDo, h, hf]
  · intro maxRetries ctx f
    have h : isIdempotent "PATCH" = false := by decide
    rcases hf : f 0 with e | s <;> simp [goDo, h, hf]
  · intro m maxRetries ctx f hgt
    by_cases h : isIdempotent m = true
    · exact h
    · exfalso
      rw [Bool.not_eq_true] at h
      rcases hf : f 0 with e | s <;> simp [goDo, h, hf] at hgt

/-- Witness for C1: a GET request whose first call times out is attempted a
second time, and the conclusion instantiates at GET. -/
theorem c1_witness :
    1 < (goDo "GET" 1 (fun _ => none) (fun _ => .err .netTimeout)).attempts ∧
      isIdempotent "GET" = true :=
  ⟨by decide,
   c1_retry_only_for_idempotent_methods.2.2.2 "GET" 1 (fun _ => none)
     (fun _ => .err .netTimeout) (by decide)⟩

/-! ## Claim C5 -/

/-- Statuses of the responses received (and hence drained and closed)
during the first `k` retried attempts starting at attempt `i`. -/
def retryDiscards (f : Nat → Outcome) : Nat → Nat → List Nat
  | _, 0 => []
  | i, k + 1 =>
    (match f i with | .resp s => [s] | .err _ => []) ++ retryDiscards f (i + 1) k

/-- If the first `k` attempts starting at `i` all run under a live context
and all cause a retry, the loop with `k` extra units of budget behaves as
the loop started at attempt `i + k`, with `k` more attempts executed and the
statuses of those `k` attempts' responses prepended to the discard list. -/
theorem doLoop_reach (ctx : Nat → Option GoErr) (f : Nat → Outcome) :
    ∀ (k r i : Nat) (le : Option GoErr),
      (∀ j, j < k → ctx (i + j) = none ∧ causesRetry (f (i + j)) = true) →
      ∃ le', doLoop ctx f (k + r) i le =
        ⟨(doLoop ctx f r (i + k) le').result,
         (doLoop ctx f r (i + k) le').attempts + k,
         retryDiscards f i k ++ (doLoop ctx f r (i + k) le').discarded,
         (doLoop ctx f r (i + k) le').lastErr⟩ := by
  intro k
  induction k with
  | zero =>
    intro r i le _
    exact ⟨le, by simp [retryDiscards]⟩
  | succ k ih =>
    intro r i le h
    obtain ⟨hctx0, hretry0⟩ := h 0 (Nat.succ_pos k)
    rw [Nat.add_zero] at hctx0 hretry0
    have hshift : ∀ j, j < k →
        ctx ((i + 1) + j) = none ∧ causesRetry (f ((i + 1) + j)) = true := by
      intro j hj
      have := h (j + 1) (by omega)
      rwa [show i + (j + 1) = (i + 1) + j by omega] at this
    have hfuel : k + 1 + r = (k + r) + 1 := by omega
    rcases hf : f i with e | s
    · have ht : isTemporaryError e = true := by
        rw [hf] at hretry0; simpa [causesRetry] using hretry0
      obtain ⟨le', hle'⟩ := ih r (i + 1) (some e) hshift
      refine ⟨le', ?_⟩
      rw [hfuel, doLoop_err_temp_succ hctx0 hf ht, hle']
      have hik : (i + 1) + k = i + (k + 1) := by omega
      simp [retryDiscards, hf, hik]
      omega
    · have hs : isRetriableStatusCode s = true := by
        rw [hf] at hretry0; simpa [causesRetry] using hretry0
      obtain ⟨le', hle'⟩ := ih r (i + 1) (some (.statusErr s)) hshift
      refine ⟨le', ?_⟩
      rw [hfuel, doLoop_resp_retriable_succ hctx0 hf hs, hle']
      have hik : (i + 1) + k = i + (k + 1) := by omega
      simp [retryDiscards, hf, hik]
      omega

/-- Projections of `goDo` on the idempotent branch. -/
theorem goDo_idem_attempts {m : String} {b : Nat} {ctx : Nat → Option GoErr}
    {f : Nat → Outcome} (hm : isIdempotent m = true) :
    (goDo m b ctx f).attempts = (doLoop ctx f b 0 none).attempts := by
  rw [goDo, if_pos hm]

theorem goDo_idem_discarded {m : String} {b : Nat} {ctx : Nat → Option GoErr}
    {f : Nat → Outcome} (hm : isIdempotent m = true) :
    (goDo m b ctx f).discarded = (doLoop ctx f b 0 none).discarded := by
  rw [goDo, if_pos hm]

theorem goDo_idem_result_ok {m : String} {b : Nat} {ctx : Nat → Option GoErr}
    {f : Nat → Outcome} {s : Nat} (hm : isIdempotent m = true)
    (h : (doLoop ctx f b 0 none).result = .ok s) :
    (goDo m b ctx f).result = .ok s := by
  rw [goDo, if_pos hm]
  show (match (doLoop ctx f b 0 none).result, (doLoop ctx f b 0 none).lastErr with
    | .ok s, _ => (.ok s : Except GoErr Nat)
    | .error _, some le =>
      .error (.wrapped s!"request failed after {b} retries" le)
    | .error e, none => .error e) = .ok s
  rw [h]

/-- **C5.** For an idempotent request, `isRetriableStatusCode` holds exactly
for 408, 429, 500, 502, 503, 504, and at any reachable attempt `k` (every
earlier attempt retried under a live context, budget not yet exhausted) that
receives a response of status `s`: if `s` is retriable the response body is
drained and closed (its status joins the discard list) and — when retry
budget and a live context remain — a further attempt is executed; if `s` is
not retriable the response is returned to the caller as-is and attempt `k`
is the last. -/
theorem c5_retriable_status_codes :
    (∀ c, isRetriableStatusCode c = true ↔
      c = 408 ∨ c = 429 ∨ c = 500 ∨ c = 502 ∨ c = 503 ∨ c = 504) ∧
    (∀ m budget ctx f k s,
      isIdempotent m = true →
      (∀ j, j < k → ctx j = none ∧ causesRetry (f j) = true) →
      k ≤ budget → ctx k = none → f k = .resp s →
      ((isRetriableStatusCode s = true →
          s ∈ (goDo m budget ctx f).discarded ∧
          (k < budget → ctx (k + 1) = none →
            k + 2 ≤ (goDo m budget ctx f).attempts)) ∧
       (isRetriableStatusCode s = false →
          (goDo m budget ctx f).result = .ok s ∧
          (goDo m budget ctx f).attempts = k + 1))) := by
  constructor
  · intro c
    simp [isRetriableStatusCode, Bool.or_eq_true, beq_iff_eq, or_assoc]
  · intro m budget ctx f k s hm hreach hk hctx hf
    have hbudget : budget = k + (budget - k) := by omega
    obtain ⟨le', hle'⟩ := doLoop_reach ctx f k (budget - k) 0 none
      (by intro j hj; simpa using hreach j hj)
    rw [Nat.zero_add] at hle'
    have hA := @goDo_idem_attempts m budget ctx f hm
    have hD := @goDo_idem_discarded m budget ctx f hm
    constructor
    · intro hs
      constructor
      · rw [hD, hbudget, hle']
        show s ∈ retryDiscards f 0 k ++ (doLoop ctx f (budget - k) k le').discarded
        rcases hb : budget - k with _ | r
        · rw [doLoop_resp_retriable_zero hctx hf hs]
          simp
        · rw [doLoop_resp_retriable_succ hctx hf hs]
          simp
      · intro hlt hctx1
        rw [hA, hbudget, hle']
        show k + 2 ≤ (doLoop ctx f (budget - k) k le').attempts + k
        rcases hb : budget - k with _ | r
        · omega
        · rw [doLoop_resp_retriable_succ hctx hf hs]
          have := @doLoop_attempts_pos ctx f (k + 1) hctx1 r (some (.statusErr s))
          simp
          omega
    · intro hs
      have hres : (doLoop ctx f budget 0 none).result = .ok s := by
        rw [hbudget, hle']
        show (doLoop ctx f (budget - k) k le').result = .ok s
        rw [doLoop_resp_ok hctx hf hs]
      refine ⟨goDo_idem_result_ok hm hres, ?_⟩
      rw [hA, hbudget, hle']
      show (doLoop ctx f (budget - k) k le').attempts + k = k + 1
      rw [doLoop_resp_ok hctx hf hs]
      show 1 + k = k + 1
      omega

/-- Witness for C5: a GET whose first attempt returns 503 (retriable:
discarded and retried) and whose second returns 200 (returned as-is). -/
theorem c5_witness :
    (isIdempotent "GET" = true ∧ 1 ≤ 3 ∧
      503 ∈ (goDo "GET" 3 (fun _ => none)
        (fun i => if i = 0 then .resp 503 else .resp 200)).discarded ∧
      (goDo "GET" 3 (fun _ => none)
        (fun i => if i = 0 then .resp 503 else .resp 200)).result = .ok 200) := by
  have h0 := (c5_retriable_status_codes.2 "GET" 3 (fun _ => none)
    (fun i => if i = 0 then .resp 503 else .resp 200) 0 503
    (by decide) (by intro j hj; omega) (by omega) rfl (by decide)).1 (by decide)
  have h1 := (c5_retriable_status_codes.2 "GET" 3 (fun _ => none)
    (fun i => if i = 0 then .resp 503 else .resp 200) 1 200
    (by decide) (by intro j hj; interval_cases j; exact ⟨rfl, by decide⟩)
    (by omega) rfl (by decide)).2 (by decide)
  exact ⟨by decide, by omega, h0.1, h1.1⟩

/-! ## Progress model (`internal/providers`, progress.go) -/

/-- `SpeedCalculator` state: start time, last-sample time (seconds, as `ℚ`),
last-sample byte count, the smoothing window and its capacity. -/
structure SpeedCalculator where
  startTime : ℚ
  lastUpdateTime : ℚ
  lastBytesUploaded : ℤ
  smoothingWindow : List ℚ
  maxWindowSize : ℕ
  deriving DecidableEq, Repr

/-- `NewSpeedCalculator()` at wall-clock time `now`: both times set to `now`,
byte count zero (Go zero value), empty window, capacity 5. -/
def SpeedCalculator.new (now : ℚ) : SpeedCalculator :=
  ⟨now, now, 0, [], 5⟩

/-- `SpeedCalculator.Update(bytesUploaded)` called at wall-clock time `now`;
returns the smoothed speed and the successor state.  Mirrors the source: a
non-positive elapsed duration returns 0 with no mutation; otherwise the
instantaneous rate is appended to the window, the head dropped if the window
exceeds `maxWindowSize`, and the window mean returned. -/
def SpeedCalculator.update (s : SpeedCalculator) (bytesUploaded : ℤ) (now : ℚ) :
    ℚ × SpeedCalculator :=
  let duration := now - s.lastUpdateTime
  if 0 < duration then
    let bytesDelta := bytesUploaded - s.lastBytesUploaded
    let currentSpeed : ℚ := (bytesDelta : ℚ) / duration
    let w0 := s.smoothingWindow ++ [currentSpeed]
    let w := if s.maxWindowSize < w0.length then w0.tail else w0
    let avgSpeed := w.sum / (w.length : ℚ)
    (avgSpeed,
     { s with smoothingWindow := w, lastUpdateTime := now,
              lastBytesUploaded := bytesUploaded })
  else
    (0, s)

/-- `SpeedCalculator.Reset()` at wall-clock time `now`. -/
def SpeedCalculator.reset (s : SpeedCalculator) (now : ℚ) : SpeedCalculator :=
  { s with startTime := now, lastUpdateTime := now,
           lastBytesUploaded := 0, smoothingWindow := [] }

/-- One call in a `SpeedCalculator` call sequence. -/
inductive SpeedOp where
  | update (bytesUploaded : ℤ) (now : ℚ)
  | reset (now : ℚ)

/-- Run a sequence of `Update`/`Reset` calls. -/
def SpeedCalculator.run (s : SpeedCalculator) : List SpeedOp → SpeedCalculator
  | [] => s
  | .update b t :: ops => ((s.update b t).2).run ops
  | .reset t :: ops => (s.reset t).run ops

theorem SpeedCalculator.update_maxWindowSize (s : SpeedCalculator)
    (b : ℤ) (t : ℚ) : ((s.update b t).2).maxWindowSize = s.maxWindowSize := by
  unfold SpeedCalculator.update
  dsimp only
  split <;> rfl

theorem SpeedCalculator.update_window_le {s : SpeedCalculator} (b : ℤ) (t : ℚ)
    (h : s.smoothingWindow.length ≤ s.maxWindowSize) :
    ((s.update b t).2).smoothingWindow.length ≤ s.maxWindowSize := by
  unfold SpeedCalculator.update
  dsimp only
  split
  · split <;> simp_all
  · exact h

/-- Any sequence of calls starting from a state whose window respects its
capacity keeps the window within capacity. -/
theorem SpeedCalculator.run_window_le :
    ∀ (ops : List SpeedOp) (s : SpeedCalculator),
      s.smoothingWindow.length ≤ s.maxWindowSize →
      (s.run ops).smoothingWindow.length ≤ s.maxWindowSize := by
  intro ops
  induction ops with
  | nil => intro s h; exact h
  | cons op ops ih =>
    intro s h
    cases op with
    | update b t =>
      show (((s.update b t).2).run ops).smoothingWindow.length ≤ s.maxWindowSize
      have h2 : ((s.update b t).2).smoothingWindow.length ≤
          ((s.update b t).2).maxWindowSize := by
        rw [SpeedCalculator.update_maxWindowSize s b t]
        exact SpeedCalculator.update_window_le b t h
      have h3 := ih _ h2
      rwa [SpeedCalculator.update_maxWindowSize s b t] at h3
    | reset t =>
      show ((s.reset t).run ops).smoothingWindow.length ≤ s.maxWindowSize
      exact ih _ (by simp [SpeedCalculator.reset])

/-! ## Claim C3 -/

/-- **C3 counterexample.** A freshly constructed calculator whose first
`Update` happens 1 second later with 1024 bytes uploaded returns 1024 (the
instantaneous rate), not 0 — the first `Update` does not return 0 for an
arbitrary byte count. -/
theorem c3_counterexample :
    ((SpeedCalculator.new 0).update 1024 1).1 = 1024 ∧
    ((SpeedCalculator.new 0).update 1024 1).1 ≠ 0 := by
  have h : ((SpeedCalculator.new 0).update 1024 1).1 = 1024 := by
    norm_num [SpeedCalculator.update, SpeedCalculator.new]
  exact ⟨h, by rw [h]; norm_num⟩

/-- **C3 (amended).** A first `Update(0)` after construction returns 0
(zero byte delta, so zero rate, whatever the elapsed time — and 0 directly
when no time has elapsed), and after `Reset()` a subsequent `Update(0)`
returns 0 again. -/
theorem c3_first_update_zero_bytes :
    (∀ t₀ t : ℚ, ((SpeedCalculator.new t₀).update 0 t).1 = 0) ∧
    (∀ (s : SpeedCalculator) (r u : ℚ), ((s.reset r).update 0 u).1 = 0) := by
  constructor
  · intro t₀ t
    unfold SpeedCalculator.update SpeedCalculator.new
    dsimp only
    split <;> simp
  · intro s r u
    unfold SpeedCalculator.update SpeedCalculator.reset
    dsimp only
    split <;> simp
    rcases eq_or_ne s.maxWindowSize 0 with h0 | h0
    · exact Or.inr h0
    · exact Or.inl (by simp [h0])

/-! ## Claim C4 -/

/-- **C4.** `Update` with non-positive elapsed time returns 0 and leaves the
whole state (in particular the window) unchanged; with positive elapsed time
it appends the instantaneous rate `(bytes delta)/elapsed` to the window —
dropping the oldest sample when the window is at its capacity (FIFO) — and
returns the arithmetic mean of the resulting window; and after any sequence
of `Update`/`Reset` calls on a freshly constructed calculator the window
holds at most 5 samples. -/
theorem c4_window_invariants :
    (∀ (s : SpeedCalculator) (b : ℤ) (t : ℚ),
      t - s.lastUpdateTime ≤ 0 → s.update b t = (0, s)) ∧
    (∀ (s : SpeedCalculator) (b : ℤ) (t : ℚ),
      0 < t - s.lastUpdateTime →
      (s.smoothingWindow.length < s.maxWindowSize →
        ((s.update b t).2).smoothingWindow =
          s.smoothingWindow ++
            [((b - s.lastBytesUploaded : ℤ) : ℚ) / (t - s.lastUpdateTime)]) ∧
      (s.smoothingWindow.length = s.maxWindowSize → s.smoothingWindow ≠ [] →
        ((s.update b t).2).smoothingWindow =
          s.smoothingWindow.tail ++
            [((b - s.lastBytesUploaded : ℤ) : ℚ) / (t - s.lastUpdateTime)]) ∧
      (s.update b t).1 =
        ((s.update b t).2).smoothingWindow.sum /
          (((s.update b t).2).smoothingWindow.length : ℚ)) ∧
    (∀ (t₀ : ℚ) (ops : List SpeedOp),
      ((SpeedCalculator.new t₀).run ops).smoothingWindow.length ≤ 5) := by
  refine ⟨?_, ?_, ?_⟩
  · intro s b t h
    unfold SpeedCalculator.update
    dsimp only
    rw [if_neg (not_lt.mpr h)]
  · intro s b t h
    refine ⟨?_, ?_, ?_⟩
    · intro hlt
      simp only [SpeedCalculator.update]
      rw [if_pos h]
      rw [if_neg (by simp only [List.length_append, List.length_cons,
        List.length_nil]; omega)]
    · intro hfull hne
      simp only [SpeedCalculator.update]
      rw [if_pos h]
      rw [if_pos (by simp only [List.length_append, List.length_cons,
        List.length_nil]; omega)]
      exact List.tail_append_singleton_of_ne_nil hne
    · simp only [SpeedCalculator.update]
      rw [if_pos h]
  · intro t₀ ops
    exact SpeedCalculator.run_window_le ops (SpeedCalculator.new t₀) (by simp [SpeedCalculator.new])

/-- Witness for C4: concrete instantiations of all three conjuncts — a
backwards-clock update leaves the state alone, a full window evicts its
oldest sample, and a concrete call sequence keeps the window at ≤ 5. -/
theorem c4_witness :
    ((-1 : ℚ) - (SpeedCalculator.new 0).lastUpdateTime ≤ 0 ∧
      (SpeedCalculator.new 0).update 7 (-1) = (0, SpeedCalculator.new 0)) ∧
    (((SpeedCalculator.new 0).run
        [.update 1 1, .update 2 2, .update 3 3, .update 4 4, .update 5 5,
         .update 6 6, .update 7 7]).smoothingWindow.length ≤ 5) :=
  ⟨⟨by norm_num [SpeedCalculator.new],
    c4_window_invariants.1 (SpeedCalculator.new 0) 7 (-1)
      (by norm_num [SpeedCalculator.new])⟩,
   c4_window_invariants.2.2 0
     [.update 1 1, .update 2 2, .update 3 3, .update 4 4, .update 5 5,
      .update 6 6, .update 7 7]⟩

/-! ## Chunked multipart upload (`RootzProvider.uploadParts`,
`AkiraBoxProvider.uploadParts`) -/

/-- One issued part: its 1-based number, the offset the source is `Seek`ed
to, and the `io.LimitReader` byte budget. -/
structure UploadPart where
  partNumber : Nat
  start : ℤ
  size : ℤ
  deriving DecidableEq, Repr

/-- The part geometry produced by the sequential per-part loop shared by
`RootzProvider.uploadParts` and `AkiraBoxProvider.uploadParts`:
`for partNum := 1; partNum <= totalParts; partNum++`, with
`start := (partNum-1)*chunkSize` and `partSize := chunkSize` clamped to
`fileSize - start` when `start+partSize > fileSize`. -/
def uploadPartsPlan (fileSize chunkSize : ℤ) (totalParts : Nat) :
    List UploadPart :=
  (List.range totalParts).map fun i =>
    let partNum : Nat := i + 1
    let start := ((partNum : ℤ) - 1) * chunkSize
    let partSize :=
      if start + chunkSize > fileSize then fileSize - start else chunkSize
    ⟨partNum, start, partSize⟩

/-! ## Claim C2 -/

/-- **C2.** For a file of size `S > 0` and chunk size `C > 0` with
`N = ⌈S/C⌉` total parts, the loop issues exactly `N` parts with part
numbers `1..N` in order (no gaps, no duplicates); part `p` is read after
seeking to `(p-1)·C` with byte span `[(p-1)·C, min(p·C, S))`; and the last
part's size is `S mod C` (or `C` when `C` divides `S`). -/
theorem c2_chunked_part_geometry (S C : ℤ) (N : Nat) (hS : 0 < S) (hC : 0 < C)
    (hN : N = (⌈(S : ℚ) / (C : ℚ)⌉).toNat) :
    (uploadPartsPlan S C N).length = N ∧
    (uploadPartsPlan S C N).map (fun p => p.partNumber) =
      (List.range N).map (fun i => i + 1) ∧
    (∀ p ∈ uploadPartsPlan S C N,
      p.start = ((p.partNumber : ℤ) - 1) * C ∧
      p.size = min ((p.partNumber : ℤ) * C) S - p.start) ∧
    (∀ p ∈ uploadPartsPlan S C N, p.partNumber = N →
      p.size = if S % C = 0 then C else S % C) ∧
    1 ≤ N := by
  have hCQ : (0 : ℚ) < (C : ℚ) := by exact_mod_cast hC
  have hceil : (N : ℤ) = ⌈(S : ℚ) / (C : ℚ)⌉ := by
    rw [hN, Int.toNat_of_nonneg]
    exact Int.ceil_nonneg
      (le_of_lt (div_pos (by exact_mod_cast hS) hCQ))
  have hub : S ≤ (N : ℤ) * C := by
    have h1 : (S : ℚ) / (C : ℚ) ≤ ((N : ℤ) : ℚ) := by
      rw [hceil]; exact Int.le_ceil _
    rw [div_le_iff₀ hCQ] at h1
    exact_mod_cast h1
  have hlb : ((N : ℤ) - 1) * C < S := by
    have h1 : ((N : ℤ) : ℚ) < (S : ℚ) / (C : ℚ) + 1 := by
      rw [hceil]; exact Int.ceil_lt_add_one _
    have h2 : ((N : ℤ) : ℚ) - 1 < (S : ℚ) / (C : ℚ) := by linarith
    rw [lt_div_iff₀ hCQ] at h2
    exact_mod_cast h2
  have hNpos : 1 ≤ N := by
    rcases Nat.eq_zero_or_pos N with h0 | h1
    · exfalso
      rw [h0] at hub
      simp at hub
      linarith
    · exact h1
  refine ⟨by simp [uploadPartsPlan], ?_, ?_, ?_, hNpos⟩
  · simp [uploadPartsPlan, List.map_map]
  · intro p hp
    simp only [uploadPartsPlan, List.mem_map, List.mem_range] at hp
    obtain ⟨i, hi, rfl⟩ := hp
    dsimp only
    have hcast : ((i + 1 : Nat) : ℤ) - 1 = (i : ℤ) := by push_cast; ring
    have hcast2 : ((i + 1 : Nat) : ℤ) * C = (i : ℤ) * C + C := by push_cast; ring
    refine ⟨rfl, ?_⟩
    rw [hcast, hcast2]
    by_cases hc : (i : ℤ) * C + C > S
    · rw [if_pos hc, min_eq_right (le_of_lt hc)]
    · rw [if_neg hc, min_eq_left (not_lt.mp hc)]
      ring
  · intro p hp hlast
    simp only [uploadPartsPlan, List.mem_map, List.mem_range] at hp
    obtain ⟨i, hi, rfl⟩ := hp
    dsimp only at hlast ⊢
    have hiN : (i : ℤ) = (N : ℤ) - 1 := by omega
    have hcast : ((i + 1 : Nat) : ℤ) - 1 = (i : ℤ) := by push_cast; ring
    rw [hcast, hiN]
    by_cases hdvd : S % C = 0
    · rw [if_pos hdvd]
      have hSN : S = (N : ℤ) * C := by
        obtain ⟨q, hq⟩ := Int.dvd_of_emod_eq_zero hdvd
        have hqle : q ≤ (N : ℤ) := by
          by_contra hq2
          push_neg at hq2
          have : (N : ℤ) * C < C * q := by
            calc (N : ℤ) * C = C * (N : ℤ) := by ring
            _ < C * q := by exact (mul_lt_mul_left hC).mpr hq2
          rw [← hq] at this
          linarith
        have hqge : (N : ℤ) ≤ q := by
          by_contra hq2
          push_neg at hq2
          have : C * q ≤ C * ((N : ℤ) - 1) := by
            apply (mul_le_mul_left hC).mpr
            omega
          rw [← hq] at this
          have : S ≤ ((N : ℤ) - 1) * C := by linarith [this];
          linarith
        have : q = (N : ℤ) := le_antisymm hqle hqge
        rw [hq, this]; ring
      rw [if_neg (by rw [hSN]; intro hcontra; nlinarith [hcontra])]
    · rw [if_neg hdvd]
      have hlt : S < (N : ℤ) * C := by
        rcases lt_or_eq_of_le hub with h | h
        · exact h
        · exfalso
          apply hdvd
          rw [h]
          simp [Int.mul_emod_left]
      rw [if_pos (by linarith)]
      have hrem0 : 0 < S - ((N : ℤ) - 1) * C := by linarith
      have hremC : S - ((N : ℤ) - 1) * C < C := by nlinarith
      have hdecomp : S = (S - ((N : ℤ) - 1) * C) + C * ((N : ℤ) - 1) := by ring
      calc S - ((N : ℤ) - 1) * C
          = (S - ((N : ℤ) - 1) * C) % C :=
            (Int.emod_eq_of_lt (le_of_lt hrem0) hremC).symm
        _ = ((S - ((N : ℤ) - 1) * C) + C * ((N : ℤ) - 1)) % C :=
            (Int.add_mul_emod_self_left _ _ _).symm
        _ = S % C := by rw [← hdecomp]

/-- Witness for C2: a 10-byte file with 4-byte chunks yields parts 1,2,3
with spans [0,4), [4,8), [8,10) and last-part size `10 mod 4 = 2`. -/
theorem c2_witness :
    (0 : ℤ) < 10 ∧ (0 : ℤ) < 4 ∧
    3 = (⌈((10 : ℤ) : ℚ) / ((4 : ℤ) : ℚ)⌉).toNat ∧
    (uploadPartsPlan 10 4 3).map (fun p => p.partNumber) =
      (List.range 3).map (fun i => i + 1) ∧
    (∀ p ∈ uploadPartsPlan 10 4 3, p.partNumber = 3 →
      p.size = if (10 : ℤ) % 4 = 0 then 4 else (10 : ℤ) % 4) := by
  have hc3 : ⌈((10 : ℤ) : ℚ) / ((4 : ℤ) : ℚ)⌉ = 3 := by
    rw [Int.ceil_eq_iff]
    constructor <;> norm_num
  have hN : 3 = (⌈((10 : ℤ) : ℚ) / ((4 : ℤ) : ℚ)⌉).toNat := by rw [hc3]; rfl
  have h := c2_chunked_part_geometry 10 4 3 (by norm_num) (by norm_num) hN
  exact ⟨by norm_num, by norm_num, hN, h.2.1, h.2.2.2.1⟩

/-! ## Provider cancellation handling (FileKeeper, DataVaults, Rootz,
AkiraBox) -/

/-- `FileKeeperProvider.uploadFile` (part_002:228-237): when the data POST
fails, `errors.Is(reqErr, context.Canceled)` is mapped to the error
`upload cancelled`; any other error is returned unchanged. -/
def fileKeeperUploadFileErr (reqErr : GoErr) : GoErr :=
  if errorsIs reqErr .contextCanceled then .otherErr "upload cancelled"
  else reqErr

/-- `FileKeeperProvider.Upload` (part_002:61-64) wraps `uploadFile` failures
as `failed to upload file: %w`. -/
def fileKeeperUploadErr (reqErr : GoErr) : GoErr :=
  .wrapped "failed to upload file" (fileKeeperUploadFileErr reqErr)

/-- `DataVaults.Upload` (helpers_test.go 543-550): the data POST's
cancellation is mapped to `upload cancelled` at top level; other errors are
returned unchanged. -/
def dataVaultsUploadErr (reqErr : GoErr) : GoErr :=
  if errorsIs reqErr .contextCanceled then .otherErr "upload cancelled"
  else reqErr

/-- The sequential per-part loop of `RootzProvider.uploadParts`
(part_003:207-252), with the seek and presigned-URL calls assumed to
succeed and the part PUT modelled by the `transfer` oracle: the context is
polled at the top of each iteration (yielding `upload cancelled`), and a
failed part transfer is wrapped as `failed to upload part %d: %w`. -/
def rootzPartsLoop (ctxDone : Nat → Bool)
    (transfer : Nat → Except GoErr String) :
    (partNum remaining : Nat) → Except GoErr (List (Nat × String))
  | _, 0 => .ok []
  | p, remaining + 1 =>
    if ctxDone p then .error (.otherErr "upload cancelled")
    else
      match transfer p with
      | .error e => .error (.wrapped s!"failed to upload part {p}" e)
      | .ok etag =>
        match rootzPartsLoop ctxDone transfer (p + 1) remaining with
        | .error e => .error e
        | .ok rest => .ok ((p, etag) :: rest)

/-- `RootzProvider.uploadLargeFile` (part_003:169-172) wraps a failed part
loop as `upload parts failed: %w`. -/
def rootzUploadLargeResult (totalParts : Nat) (ctxDone : Nat → Bool)
    (transfer : Nat → Except GoErr String) :
    Except GoErr (List (Nat × String)) :=
  match rootzPartsLoop ctxDone transfer 1 totalParts with
  | .error e => .error (.wrapped "upload parts failed" e)
  | .ok parts => .ok parts

/-- The identical per-part loop of `AkiraBoxProvider.uploadParts`
(akirabox.go:165-216). -/
def akiraPartsLoop (ctxDone : Nat → Bool)
    (transfer : Nat → Except GoErr String) :
    (partNum remaining : Nat) → Except GoErr (List (Nat × String))
  | _, 0 => .ok []
  | p, remaining + 1 =>
    if ctxDone p then .error (.otherErr "upload cancelled")
    else
      match transfer p with
      | .error e => .error (.wrapped s!"failed to upload part {p}" e)
      | .ok etag =>
        match akiraPartsLoop ctxDone transfer (p + 1) remaining with
        | .error e => .error e
        | .ok rest => .ok ((p, etag) :: rest)

/-! ## Claim C6 -/

/-- **C6 counterexample.** In the Rootz provider, a single-part upload whose
part PUT fails with `context.Canceled` while the loop-top context poll saw a
live context produces the error
`upload parts failed: failed to upload part 1: context canceled`: its
unwrap chain contains no error rendering as `upload cancelled`, even though
the failure was caused by context cancellation. -/
theorem c6_counterexample :
    rootzUploadLargeResult 1 (fun _ => false) (fun _ => .error .contextCanceled) =
      .error (.wrapped "upload parts failed"
        (.wrapped "failed to upload part 1" .contextCanceled)) ∧
    errorsIs (.wrapped "upload parts failed"
      (.wrapped "failed to upload part 1" .contextCanceled)) .contextCanceled = true ∧
    GoErr.chainHasMessage (.wrapped "upload parts failed"
      (.wrapped "failed to upload part 1" .contextCanceled)) "upload cancelled" = false ∧
    GoErr.message (.wrapped "upload parts failed"
      (.wrapped "failed to upload part 1" .contextCanceled)) =
      "upload parts failed: failed to upload part 1: context canceled" := by
  refine ⟨rfl, by decide, by decide, rfl⟩

/-- **C6 (amended).** FileKeeper and DataVaults surface the distinct
`upload cancelled` error when the data-transfer request fails because the
context was cancelled (FileKeeper inside its `failed to upload file` wrap);
Rootz and AkiraBox surface `upload cancelled` only when cancellation is
observed by the poll at the top of a part iteration — a part transfer that
fails mid-flight is wrapped as `upload parts failed: failed to upload
part N: …` without the distinct message (unless the transfer error itself
carried it). -/
theorem c6_cancellation_surfacing :
    (∀ e : GoErr, errorsIs e .contextCanceled = true →
      (fileKeeperUploadErr e).chainHasMessage "upload cancelled" = true ∧
      dataVaultsUploadErr e = .otherErr "upload cancelled") ∧
    (∀ (p rem : Nat) (ctxDone : Nat → Bool)
        (transfer : Nat → Except GoErr String),
      ctxDone p = true →
      rootzPartsLoop ctxDone transfer p (rem + 1) =
        .error (.otherErr "upload cancelled") ∧
      akiraPartsLoop ctxDone transfer p (rem + 1) =
        .error (.otherErr "upload cancelled")) ∧
    (∀ (e : GoErr) (ctxDone : Nat → Bool)
        (transfer : Nat → Except GoErr String) (rem : Nat),
      ctxDone 1 = false → transfer 1 = .error e →
      rootzUploadLargeResult (rem + 1) ctxDone transfer =
        .error (.wrapped "upload parts failed"
          (.wrapped "failed to upload part 1" e))) := by
  refine ⟨?_, ?_, ?_⟩
  · intro e h
    refine ⟨?_, ?_⟩
    · simp [fileKeeperUploadErr, fileKeeperUploadFileErr, h,
        GoErr.chainHasMessage, GoErr.chain, GoErr.message]
    · simp [dataVaultsUploadErr, h]
  · intro p rem ctxDone transfer h
    constructor
    · unfold rootzPartsLoop
      rw [if_pos h]
    · unfold akiraPartsLoop
      rw [if_pos h]
  · intro e ctxDone transfer rem hctx htr
    unfold rootzUploadLargeResult rootzPartsLoop
    rw [hctx, htr]
    simp
    rfl

/-- Witness for C6 (amended): concrete instantiations — a cancelled POST on
FileKeeper/DataVaults, a loop-top cancellation on Rootz/AkiraBox, and a
mid-flight cancelled part transfer on Rootz. -/
theorem c6_witness :
    errorsIs .contextCanceled .contextCanceled = true ∧
    (fileKeeperUploadErr .contextCanceled).chainHasMessage
      "upload cancelled" = true ∧
    dataVaultsUploadErr .contextCanceled = .otherErr "upload cancelled" ∧
    rootzPartsLoop (fun _ => true) (fun _ => .ok "etag") 1 1 =
      .error (.otherErr "upload cancelled") ∧
    rootzUploadLargeResult 1 (fun _ => false)
        (fun _ => .error .contextCanceled) =
      .error (.wrapped "upload parts failed"
        (.wrapped "failed to upload part 1" .contextCanceled)) := by
  have h1 := c6_cancellation_surfacing.1 .contextCanceled (by decide)
  have h2 := (c6_cancellation_surfacing.2.1 1 0 (fun _ => true)
    (fun _ => .ok "etag") rfl).1
  have h3 := c6_cancellation_surfacing.2.2 .contextCanceled (fun _ => false)
    (fun _ => .error .contextCanceled) 0 rfl rfl
  exact ⟨by decide, h1.1, h1.2, h2, h3⟩

/-! ## Progress percentages -/

/-- Go's `int(x)` conversion from `float64`: truncation toward zero,
embedded on `ℚ` as truncated division of numerator by denominator. -/
def goTrunc (q : ℚ) : ℤ :=
  q.num.tdiv q.den

theorem goTrunc_eq_floor {q : ℚ} (h : 0 ≤ q) : goTrunc q = ⌊q⌋ := by
  obtain ⟨n, hn⟩ := Int.eq_ofNat_of_zero_le (Rat.num_nonneg.mpr h)
  rw [goTrunc, Rat.floor_def, hn]
  rfl

theorem goTrunc_bounds {q : ℚ} (h0 : 0 ≤ q) (h100 : q ≤ 100) :
    0 ≤ goTrunc q ∧ goTrunc q ≤ 100 := by
  rw [goTrunc_eq_floor h0]
  constructor
  · exact Int.floor_nonneg.mpr h0
  · have h1 : (⌊q⌋ : ℚ) ≤ q := Int.floor_le q
    have h2 : (⌊q⌋ : ℚ) ≤ 100 := le_trans h1 h100
    exact_mod_cast h2

/-- Percentage computed in the FileKeeper/DataVaults progress ticker
(part_002:199-212, helpers_test.go 514-527): 0 when the declared size is
not positive, otherwise `fs/fileSize*100` clamped above at 100, then
truncated by Go's `int(...)`. -/
def tickerPercentage (fs fileSize : ℤ) : ℤ :=
  goTrunc
    (if 0 < fileSize then
      (if 100 < (fs : ℚ) / (fileSize : ℚ) * 100 then 100
       else (fs : ℚ) / (fileSize : ℚ) * 100)
     else 0)

/-- Percentage computed in `uploadPartWithProgress` of Rootz
(part_003:270) and AkiraBox (akirabox.go:233):
`int(float64(totalUploaded)/float64(fileSize)*100)`, no clamping. -/
def partPercentage (totalUploaded fileSize : ℤ) : ℤ :=
  goTrunc ((totalUploaded : ℚ) / (fileSize : ℚ) * 100)

/-- The final progress value sent by `RootzProvider.uploadSmallFile`
(part_003:114-119) carries `Percentage: 100`. -/
def rootzSmallFilePercentage : ℤ := 100

/-! ## Claim C7 -/

/-- **C7.** Every `UploadProgress.Percentage` a provider emits lies in
`[0, 100]`: the FileKeeper/DataVaults ticker percentage for any non-negative
byte count (the clamp handles overshoot), the Rootz/AkiraBox per-part
percentage whenever the declared file size is the true source size
(`0 ≤ uploaded ≤ size`, `size > 0`), and the Rootz small-file final 100. -/
theorem c7_percentage_in_range :
    (∀ fs fileSize : ℤ, 0 ≤ fs →
      0 ≤ tickerPercentage fs fileSize ∧ tickerPercentage fs fileSize ≤ 100) ∧
    (∀ u S : ℤ, 0 ≤ u → u ≤ S → 0 < S →
      0 ≤ partPercentage u S ∧ partPercentage u S ≤ 100) ∧
    (0 ≤ rootzSmallFilePercentage ∧ rootzSmallFilePercentage ≤ 100) := by
  refine ⟨?_, ?_, by norm_num [rootzSmallFilePercentage]⟩
  · intro fs fileSize hfs
    unfold tickerPercentage
    by_cases hS : 0 < fileSize
    · rw [if_pos hS]
      by_cases hclamp : 100 < (fs : ℚ) / (fileSize : ℚ) * 100
      · rw [if_pos hclamp]
        exact goTrunc_bounds (by norm_num) (by norm_num)
      · rw [if_neg hclamp]
        refine goTrunc_bounds ?_ (not_lt.mp hclamp)
        have h1 : (0 : ℚ) ≤ (fs : ℚ) / (fileSize : ℚ) :=
          div_nonneg (by exact_mod_cast hfs) (by exact_mod_cast (le_of_lt hS))
        linarith
    · rw [if_neg hS]
      exact goTrunc_bounds le_rfl (by norm_num)
  · intro u S hu huS hS
    unfold partPercentage
    have hSQ : (0 : ℚ) < (S : ℚ) := by exact_mod_cast hS
    have h1 : (0 : ℚ) ≤ (u : ℚ) / (S : ℚ) :=
      div_nonneg (by exact_mod_cast hu) (le_of_lt hSQ)
    have h2 : (u : ℚ) / (S : ℚ) ≤ 1 :=
      (div_le_one hSQ).mpr (by exact_mod_cast huS)
    exact goTrunc_bounds (by linarith) (by linarith)

/-- Witness for C7: concrete in-range instantiations of all three parts. -/
theorem c7_witness :
    ((0 : ℤ) ≤ 300 ∧ 0 ≤ tickerPercentage 300 200 ∧
      tickerPercentage 300 200 ≤ 100) ∧
    ((0 : ℤ) ≤ 1 ∧ (1 : ℤ) ≤ 2 ∧ (0 : ℤ) < 2 ∧
      0 ≤ partPercentage 1 2 ∧ partPercentage 1 2 ≤ 100) := by
  have h1 := c7_percentage_in_range.1 300 200 (by norm_num)
  have h2 := c7_percentage_in_range.2.1 1 2 (by norm_num) (by norm_num)
    (by norm_num)
  exact ⟨⟨by norm_num, h1.1, h1.2⟩,
    ⟨by norm_num, by norm_num, by norm_num, h2.1, h2.2⟩⟩

/-! ## Upload controller (`internal/ui/upload_tab.go`) -/

/-- The controller state observable through `onUpload`/`startUpload`:
whether a file and a provider are selected, the `isUploading` flag, whether
`cancelUpload` is non-nil, whether cancellation has been requested on the
current context, and how many transfer goroutines have been launched. -/
structure UploadTabState where
  hasFile : Bool
  hasProvider : Bool
  isUploading : Bool
  hasCancelFunc : Bool
  cancelRequested : Bool
  transfersStarted : Nat
  deriving DecidableEq, Repr

/-- `UploadTab.startUpload` (upload_tab.go:224-301), happy path: sets
`isUploading`, installs a fresh cancel function for a fresh context, and
launches one transfer goroutine. -/
def startUpload (s : UploadTabState) : UploadTabState :=
  { s with isUploading := true, hasCancelFunc := true,
           cancelRequested := false,
           transfersStarted := s.transfersStarted + 1 }

/-- `UploadTab.onUpload` (upload_tab.go:206-221): returns immediately with
no file or provider selected; while `isUploading`, calls `t.cancelUpload()`
when non-nil (cancelling the in-flight upload) and starts nothing;
otherwise starts the upload. -/
def onUpload (s : UploadTabState) : UploadTabState :=
  if !s.hasFile || !s.hasProvider then s
  else if s.isUploading then
    (if s.hasCancelFunc then { s with cancelRequested := true } else s)
  else startUpload s

/-! ## Claim C8 -/

/-- **C8 counterexample.** With an upload in flight (file and provider
selected, `isUploading`, live cancel function), a second invocation of the
upload action is not a no-op: it changes the state by requesting
cancellation of the in-flight upload. -/
theorem c8_counterexample :
    onUpload ⟨true, true, true, true, false, 1⟩ ≠
      ⟨true, true, true, true, false, 1⟩ ∧
    (onUpload ⟨true, true, true, true, false, 1⟩).cancelRequested = true := by
  constructor <;> decide

/-- **C8 (amended).** While `isUploading`, a second invocation of the upload
action never launches a new transfer (so exactly the one transfer stays in
flight) and leaves the state Uploading — but instead of being a pure no-op
it requests cancellation of the in-flight upload when a cancel function is
installed; and no single invocation ever launches more than one transfer. -/
theorem c8_second_start_no_new_transfer :
    (∀ s : UploadTabState, s.isUploading = true →
      (onUpload s).transfersStarted = s.transfersStarted ∧
      (onUpload s).isUploading = true ∧
      (s.hasFile = true → s.hasProvider = true → s.hasCancelFunc = true →
        (onUpload s).cancelRequested = true)) ∧
    (∀ s : UploadTabState,
      (onUpload s).transfersStarted ≤ s.transfersStarted + 1) := by
  constructor
  · intro s hup
    unfold onUpload
    rcases hf : s.hasFile with _ | _ <;>
      rcases hp : s.hasProvider with _ | _ <;>
      rcases hc : s.hasCancelFunc with _ | _ <;>
      simp [hup, hf, hp, hc]
  · intro s
    unfold onUpload startUpload
    rcases hf : s.hasFile with _ | _ <;>
      rcases hp : s.hasProvider with _ | _ <;>
      rcases hu : s.isUploading with _ | _ <;>
      rcases hc : s.hasCancelFunc with _ | _ <;>
      simp [hf, hp, hu, hc]

/-- Witness for C8: the in-flight state from the counterexample — the
second invocation keeps `transfersStarted` at 1 and stays Uploading. -/
theorem c8_witness :
    (⟨true, true, true, true, false, 1⟩ : UploadTabState).isUploading = true ∧
    (onUpload ⟨true, true, true, true, false, 1⟩).transfersStarted = 1 ∧
    (onUpload ⟨true, true, true, true, false, 1⟩).isUploading = true :=
  ⟨rfl,
   (c8_second_start_no_new_transfer.1 ⟨true, true, true, true, false, 1⟩ rfl).1,
   (c8_second_start_no_new_transfer.1 ⟨true, true, true, true, false, 1⟩ rfl).2.1⟩

/-! ## Human-readable formatting (`FormatSize`, `FormatSpeed`) -/

/-- Round to the nearest integer, ties to even — the rounding Go's `fmt`
`%.Nf` verb applies to the (exactly representable) values at hand. -/
def roundHalfEven (q : ℚ) : ℤ :=
  let f := ⌊q⌋
  if q - f < 1 / 2 then f
  else if 1 / 2 < q - f then f + 1
  else if f % 2 = 0 then f else f + 1

/-- Left-pad a string with `'0'` to length `n`. -/
def padZeros (n : Nat) (s : String) : String :=
  String.mk (List.replicate (n - s.length) '0') ++ s

/-- Go's `%.Nf` rendering of a non-negative value: scale by `10^N`, round
half to even, and print with exactly `N` digits after the point
(none for `N = 0`). -/
def formatFixed (prec : Nat) (q : ℚ) : String :=
  let scaled := roundHalfEven (q * ((10 ^ prec : Nat) : ℚ))
  let ip := scaled / ((10 ^ prec : Nat) : ℤ)
  let fp := scaled % ((10 ^ prec : Nat) : ℤ)
  if prec = 0 then toString ip
  else toString ip ++ "." ++ padZeros prec (toString fp)

/-- `FormatSize` (progress.go 328-338): `%d B` below 1024, `%.1f KB` below
1024², `%.2f MB` below 1024³, `%.2f GB` otherwise. -/
def FormatSize (bytes : ℤ) : String :=
  if bytes < 1024 then toString bytes ++ " B"
  else if bytes < 1024 * 1024 then
    formatFixed 1 ((bytes : ℚ) / 1024) ++ " KB"
  else if bytes < 1024 * 1024 * 1024 then
    formatFixed 2 ((bytes : ℚ) / (1024 * 1024)) ++ " MB"
  else
    formatFixed 2 ((bytes : ℚ) / (1024 * 1024 * 1024)) ++ " GB"

/-- `FormatSpeed` (progress.go 317-325): `%.0f B/s` below 1024, `%.1f KB/s`
below 1024², `%.2f MB/s` otherwise — it has no GB branch. -/
def FormatSpeed (bytesPerSec : ℚ) : String :=
  if bytesPerSec < 1024 then
    formatFixed 0 bytesPerSec ++ " B/s"
  else if bytesPerSec < 1024 * 1024 then
    formatFixed 1 (bytesPerSec / 1024) ++ " KB/s"
  else
    formatFixed 2 (bytesPerSec / (1024 * 1024)) ++ " MB/s"

theorem roundHalfEven_intCast (m : ℤ) : roundHalfEven ((m : ℤ) : ℚ) = m := by
  unfold roundHalfEven
  rw [Int.floor_intCast]
  norm_num

/-- `%.0f` of an integer value prints its decimal digits, like `%d`. -/
theorem formatFixed_zero_intCast (n : ℤ) :
    formatFixed 0 ((n : ℤ) : ℚ) = toString n := by
  unfold formatFixed
  norm_num [roundHalfEven_intCast]

/-! ## Claim C9 -/

/-- **C9 counterexample.** At one gibibyte per second the two formatters
diverge: `FormatSpeed` stays in the MB/s branch (`1024.00 MB/s`) while
`FormatSize` has a GB branch (`1.00 GB`), so
`FormatSpeed(1024³) ≠ FormatSize(1024³) ++ "/s"`. -/
theorem c9_counterexample :
    FormatSpeed (((1024 * 1024 * 1024 : ℤ) : ℚ)) = "1024.00 MB/s" ∧
    FormatSize (1024 * 1024 * 1024) ++ "/s" = "1.00 GB/s" ∧
    FormatSpeed (((1024 * 1024 * 1024 : ℤ) : ℚ)) ≠
      FormatSize (1024 * 1024 * 1024) ++ "/s" := by
  have hMB : formatFixed 2 (((1024 * 1024 * 1024 : ℤ) : ℚ) / (1024 * 1024)) =
      "1024.00" := by
    rw [show (((1024 * 1024 * 1024 : ℤ) : ℚ) / (1024 * 1024)) =
      ((1024 : ℤ) : ℚ) by norm_num]
    unfold formatFixed
    rw [show ((1024 : ℤ) : ℚ) * ((10 ^ 2 : Nat) : ℚ) = ((102400 : ℤ) : ℚ) by
      norm_num]
    rw [roundHalfEven_intCast]
    rfl
  have hGB : formatFixed 2
      (((1024 * 1024 * 1024 : ℤ) : ℚ) / (1024 * 1024 * 1024)) = "1.00" := by
    rw [show (((1024 * 1024 * 1024 : ℤ) : ℚ) / (1024 * 1024 * 1024)) =
      ((1 : ℤ) : ℚ) by norm_num]
    unfold formatFixed
    rw [show ((1 : ℤ) : ℚ) * ((10 ^ 2 : Nat) : ℚ) = ((100 : ℤ) : ℚ) by
      norm_num]
    rw [roundHalfEven_intCast]
    rfl
  have e1 : FormatSpeed (((1024 * 1024 * 1024 : ℤ) : ℚ)) = "1024.00 MB/s" := by
    unfold FormatSpeed
    rw [if_neg (by norm_num), if_neg (by norm_num), hMB]
    decide
  have e2 : FormatSize (1024 * 1024 * 1024) = "1.00 GB" := by
    unfold FormatSize
    rw [if_neg (by norm_num), if_neg (by norm_num), if_neg (by norm_num), hGB]
    decide
  refine ⟨e1, by rw [e2]; decide, ?_⟩
  rw [e1, e2]
  decide

/-- **C9 (amended).** For every non-negative integer rate `r` below 1024³,
`FormatSpeed(r)` equals `FormatSize(r)` followed by `"/s"`: the two use the
same 1024-based thresholds and digit rules on the B/KB/MB ranges.  At and
above 1024³ they diverge, since `FormatSpeed` has no GB branch. -/
theorem c9_speed_mirrors_size_below_gb (n : ℤ) (h0 : 0 ≤ n)
    (h : n < 1024 * 1024 * 1024) :
    FormatSpeed ((n : ℤ) : ℚ) = FormatSize n ++ "/s" := by
  unfold FormatSpeed FormatSize
  by_cases h1 : n < 1024
  · rw [if_pos h1, if_pos (show ((n : ℤ) : ℚ) < 1024 by exact_mod_cast h1)]
    rw [formatFixed_zero_intCast, String.append_assoc]
    rfl
  · have h1Q : ¬ ((n : ℤ) : ℚ) < 1024 := by
      rw [not_lt] at h1 ⊢; exact_mod_cast h1
    rw [if_neg h1, if_neg h1Q]
    by_cases h2 : n < 1024 * 1024
    · rw [if_pos h2,
        if_pos (show ((n : ℤ) : ℚ) < 1024 * 1024 by exact_mod_cast h2)]
      rw [String.append_assoc]
      rfl
    · have h2Q : ¬ ((n : ℤ) : ℚ) < 1024 * 1024 := by
        rw [not_lt] at h2 ⊢; exact_mod_cast h2
      rw [if_neg h2, if_neg h2Q, if_pos h]
      rw [String.append_assoc]
      rfl

/-- Witness for C9 (amended): at 1536 bytes/s both formatters agree on
`1.5 KB` with the `/s` suffix. -/
theorem c9_witness :
    (0 : ℤ) ≤ 1536 ∧ (1536 : ℤ) < 1024 * 1024 * 1024 ∧
    FormatSpeed ((1536 : ℤ) : ℚ) = FormatSize 1536 ++ "/s" :=
  ⟨by norm_num, by norm_num,
   c9_speed_mirrors_size_below_gb 1536 (by norm_num) (by norm_num)⟩

/-! ## Provider auth and API-key validation -/

/-- `FileKeeperProvider.RequiresAuth` (part_002:33-35). -/
def fileKeeperRequiresAuth : Bool := true

/-- `DataVaults.RequiresAuth` (helpers_test.go 570-572). -/
def dataVaultsRequiresAuth : Bool := true

/-- `RootzProvider.RequiresAuth` (part_003:34-36). -/
def rootzRequiresAuth : Bool := true

/-- `AkiraBoxProvider.RequiresAuth` (akirabox.go:34-36). -/
def akiraBoxRequiresAuth : Bool := true

/-- `FileKeeperProvider.ValidateAPIKey` (part_002:37-42): error exactly on
the empty key. -/
def fileKeeperValidateAPIKey (apiKey : String) : Option String :=
  if apiKey = "" then some "API key is required" else none

/-- `DataVaults.ValidateAPIKey` (helpers_test.go 574-579). -/
def dataVaultsValidateAPIKey (apiKey : String) : Option String :=
  if apiKey = "" then some "API key is required" else none

/-- `RootzProvider.ValidateAPIKey` (part_003:38-43). -/
def rootzValidateAPIKey (apiKey : String) : Option String :=
  if apiKey = "" then some "API key is required" else none

/-- `AkiraBoxProvider.ValidateAPIKey` (akirabox.go:38-43). -/
def akiraBoxValidateAPIKey (apiKey : String) : Option String :=
  if apiKey = "" then some "API token is required" else none

/-! ## Claim C10 -/

/-- **C10.** All four real providers require auth, and each
`ValidateAPIKey` returns an error exactly when the key is the empty
string — any non-empty key passes with no further validation. -/
theorem c10_auth_and_key_validation :
    (fileKeeperRequiresAuth = true ∧ dataVaultsRequiresAuth = true ∧
     rootzRequiresAuth = true ∧ akiraBoxRequiresAuth = true) ∧
    (∀ k : String, (fileKeeperValidateAPIKey k).isSome ↔ k = "") ∧
    (∀ k : String, (dataVaultsValidateAPIKey k).isSome ↔ k = "") ∧
    (∀ k : String, (rootzValidateAPIKey k).isSome ↔ k = "") ∧
    (∀ k : String, (akiraBoxValidateAPIKey k).isSome ↔ k = "") := by
  refine ⟨⟨rfl, rfl, rfl, rfl⟩, ?_, ?_, ?_, ?_⟩ <;>
    intro k <;>
    first
    | (unfold fileKeeperValidateAPIKey; split <;> simp_all)
    | (unfold dataVaultsValidateAPIKey; split <;> simp_all)
    | (unfold rootzValidateAPIKey; split <;> simp_all)
    | (unfold akiraBoxValidateAPIKey; split <;> simp_all)

end MultiUploader
